import Mathlib

/-!
Verification development for the mini-starknet-indexer repository.

The definitions below are a shallow embedding of the Rust sources:
  * `src/starknet.rs`  — RPC wrapper (`rpc_call`), ABI parser (`AbiParser`)
    and the ABI-driven event decoder (`decode_event_using_abi`);
  * `src/database.rs`  — address canonicalization (`normalize_address`),
    the event record shape and the type-filtered `get_events` branch;
  * `src/indexer.rs`   — the historical window loop, the steady-state
    tailing step and the per-window record construction
    (`sync_block_range`);
  * `src/realtime.rs`  — the subscription filter predicate
    (`matches_filter`) and the broadcast fan-out.

Machine integers are modelled as `Nat` / `Int` with explicit bounds where
Rust parses into `u64` / `i64`; JSON values are modelled by the small
`JVal` type (field elements arriving from the chain are hex strings, so
the slots of `keys` / `data` are modelled as `String`); fallible
operations return `Option` or a result type.  Wall-clock timestamps are
not modelled.
-/

/-- JSON-like values produced by the decoder (serde_json::Value restricted
to the shapes the decoder emits: strings, numbers, booleans, null and the
auxiliary arrays of raw field-element strings). -/
inductive JVal where
  | str (s : String)
  | num (n : Int)
  | jbool (b : Bool)
  | jnull
  | arr (xs : List String)
deriving DecidableEq

/-- Value of a single hex digit, as accepted by Rust `from_str_radix(_, 16)`. -/
def hexDigitVal? (c : Char) : Option Nat :=
  if '0' ≤ c ∧ c ≤ '9' then some (c.toNat - '0'.toNat)
  else if 'a' ≤ c ∧ c ≤ 'f' then some (c.toNat - 'a'.toNat + 10)
  else if 'A' ≤ c ∧ c ≤ 'F' then some (c.toNat - 'A'.toNat + 10)
  else none

/-- Value of a single decimal digit. -/
def decDigitVal? (c : Char) : Option Nat :=
  if '0' ≤ c ∧ c ≤ '9' then some (c.toNat - '0'.toNat)
  else none

/-- Accumulating hex parse over a digit list; `none` on any non-hex char. -/
def hexAccum (acc : Nat) : List Char → Option Nat
  | [] => some acc
  | c :: cs =>
    match hexDigitVal? c with
    | some d => hexAccum (acc * 16 + d) cs
    | none => none

/-- Unbounded hex parse of a character list (empty input is a parse error,
as in Rust `from_str_radix`). -/
def hexNat? (cs : List Char) : Option Nat :=
  if cs.isEmpty then none else hexAccum 0 cs

/-- Accumulating decimal parse over a digit list. -/
def decAccum (acc : Nat) : List Char → Option Nat
  | [] => some acc
  | c :: cs =>
    match decDigitVal? c with
    | some d => decAccum (acc * 10 + d) cs
    | none => none

/-- Unbounded decimal parse of a character list. -/
def decNat? (cs : List Char) : Option Nat :=
  if cs.isEmpty then none else decAccum 0 cs

/-- Rust integer parsing accepts one optional leading plus sign. -/
def stripPlus : List Char → List Char
  | '+' :: rest => rest
  | cs => cs

/-- Model of Rust `u64::from_str_radix(s, 16)`: fails on invalid digits,
on an empty digit string and on overflow past `2^64 - 1`. -/
def rust_u64_from_hex (cs : List Char) : Option Nat :=
  match hexNat? (stripPlus cs) with
  | some n => if n < 2 ^ 64 then some n else none
  | none => none

/-- Model of Rust `s.parse::<u64>()` (decimal). -/
def rust_u64_from_dec (cs : List Char) : Option Nat :=
  match decNat? (stripPlus cs) with
  | some n => if n < 2 ^ 64 then some n else none
  | none => none

/-- Model of Rust `i64::from_str_radix(s, 16)`. -/
def rust_i64_from_hex (cs : List Char) : Option Int :=
  match cs with
  | '-' :: rest =>
    match hexNat? rest with
    | some n => if n ≤ 2 ^ 63 then some (-(n : Int)) else none
    | none => none
  | _ =>
    match hexNat? (stripPlus cs) with
    | some n => if n < 2 ^ 63 then some (n : Int) else none
    | none => none

/-- Model of Rust `s.parse::<i64>()` (decimal). -/
def rust_i64_from_dec (cs : List Char) : Option Int :=
  match cs with
  | '-' :: rest =>
    match decNat? rest with
    | some n => if n ≤ 2 ^ 63 then some (-(n : Int)) else none
    | none => none
  | _ =>
    match decNat? (stripPlus cs) with
    | some n => if n < 2 ^ 63 then some (n : Int) else none
    | none => none

/-- Model of Rust `s.trim_start_matches("0x")`, repeatedly stripping the
prefix as the Rust method does. -/
def trim0x : List Char → List Char
  | '0' :: 'x' :: rest => trim0x rest
  | cs => cs

/-- Model of `hex::decode`: an even-length string of hex digits becomes a
byte list, anything else is an error. -/
def hexBytes? : List Char → Option (List Nat)
  | [] => some []
  | [_] => none
  | c1 :: c2 :: rest =>
    match hexDigitVal? c1, hexDigitVal? c2, hexBytes? rest with
    | some h, some l, some bs => some ((h * 16 + l) :: bs)
    | _, _, _ => none

/-- Continuation byte of a UTF-8 sequence. -/
def utf8Cont (b : Nat) : Bool :=
  decide (0x80 ≤ b ∧ b ≤ 0xBF)

/-- Strict UTF-8 decoding of a byte list (the model of
`String::from_utf8`): rejects overlong encodings, surrogates and
code points beyond U+10FFFF. -/
def utf8Decode? : List Nat → Option (List Char)
  | [] => some []
  | b :: rest =>
    if b < 0x80 then
      (utf8Decode? rest).map (fun cs => Char.ofNat b :: cs)
    else if 0xC2 ≤ b ∧ b ≤ 0xDF then
      match rest with
      | c1 :: rest2 =>
        if utf8Cont c1 then
          (utf8Decode? rest2).map (fun cs => Char.ofNat ((b - 0xC0) * 0x40 + (c1 - 0x80)) :: cs)
        else none
      | [] => none
    else if 0xE0 ≤ b ∧ b ≤ 0xEF then
      match rest with
      | c1 :: c2 :: rest3 =>
        let c1ok :=
          if b = 0xE0 then decide (0xA0 ≤ c1 ∧ c1 ≤ 0xBF)
          else if b = 0xED then decide (0x80 ≤ c1 ∧ c1 ≤ 0x9F)
          else utf8Cont c1
        if c1ok && utf8Cont c2 then
          (utf8Decode? rest3).map (fun cs =>
            Char.ofNat ((b - 0xE0) * 0x1000 + (c1 - 0x80) * 0x40 + (c2 - 0x80)) :: cs)
        else none
      | _ => none
    else if 0xF0 ≤ b ∧ b ≤ 0xF4 then
      match rest with
      | c1 :: c2 :: c3 :: rest4 =>
        let c1ok :=
          if b = 0xF0 then decide (0x90 ≤ c1 ∧ c1 ≤ 0xBF)
          else if b = 0xF4 then decide (0x80 ≤ c1 ∧ c1 ≤ 0x8F)
          else utf8Cont c1
        if c1ok && utf8Cont c2 && utf8Cont c3 then
          (utf8Decode? rest4).map (fun cs =>
            Char.ofNat ((b - 0xF0) * 0x40000 + (c1 - 0x80) * 0x1000 +
              (c2 - 0x80) * 0x40 + (c3 - 0x80)) :: cs)
        else none
      | _ => none
    else none
termination_by l => l.length
decreasing_by all_goals simp_wf <;> omega

/-- Model of Rust `char::is_ascii_graphic`. -/
def is_ascii_graphic (c : Char) : Bool :=
  decide (0x21 ≤ c.toNat ∧ c.toNat ≤ 0x7E)

/-- Model of Rust `char::is_whitespace` (the Unicode White_Space set). -/
def rust_char_is_whitespace (c : Char) : Bool :=
  [0x09, 0x0A, 0x0B, 0x0C, 0x0D, 0x20, 0x85, 0xA0, 0x1680,
   0x2000, 0x2001, 0x2002, 0x2003, 0x2004, 0x2005, 0x2006, 0x2007,
   0x2008, 0x2009, 0x200A, 0x2028, 0x2029, 0x202F, 0x205F, 0x3000].contains c.toNat

/-- Model of Rust `bytes.rev().skip_while(zero).rev()` in `felt_to_string`. -/
def dropTrailingZeros (bs : List Nat) : List Nat :=
  (bs.reverse.dropWhile (fun b => b == 0)).reverse

/-- Model of `AbiParser::felt_to_string` in `src/starknet.rs`: strip
`"0x"`, hex-decode to bytes, drop trailing zero bytes, and if the result
is valid UTF-8 made of printable-or-whitespace characters and non-empty,
return it; otherwise parse the hex as `u64` and return its decimal
representation, falling back to the original hex string. -/
def felt_to_string (felt_hex : String) : String :=
  let hex_str := trim0x felt_hex.data
  let viaText : Option String :=
    match hexBytes? hex_str with
    | some bytes =>
      let trimmed_bytes := dropTrailingZeros bytes
      match utf8Decode? trimmed_bytes with
      | some chars =>
        if chars.all (fun c => is_ascii_graphic c || rust_char_is_whitespace c)
            && !chars.isEmpty then
          some (String.mk chars)
        else none
      | none => none
    | none => none
  match viaText with
  | some s => s
  | none =>
    match rust_u64_from_hex hex_str with
    | some num => Nat.repr num
    | none => felt_hex

/-- Short unsigned integer type names recognized by `decode_basic_type`. -/
def unsignedShortNames : List String := ["u8", "u16", "u32", "u64", "u128"]

/-- Short signed integer type names recognized by `decode_basic_type`. -/
def signedShortNames : List String := ["i8", "i16", "i32", "i64", "i128"]

/-- Model of `AbiParser::decode_basic_type` in `src/starknet.rs`.  The
branches appear in the source's match-arm order; in particular the guard
`starts_with "core::integer::u"` precedes (and therefore captures)
`"core::integer::u256"`, while the literal `"u256"` reaches the dedicated
arm. -/
def decode_basic_type_str (s : String) (type_name : String) : Option JVal :=
  if type_name = "felt252" ∨ type_name = "core::felt252" ∨ type_name = "felt" then
    some (.str (felt_to_string s))
  else if type_name.startsWith "core::integer::u" ∨ unsignedShortNames.contains type_name then
    match rust_u64_from_hex (trim0x s.data) with
    | some num => some (.num (Int.ofNat num))
    | none =>
      match rust_u64_from_dec s.data with
      | some num => some (.num (Int.ofNat num))
      | none => some (.str s)
  else if type_name = "core::integer::u256" ∨ type_name = "u256" then
    match rust_u64_from_hex (trim0x s.data) with
    | some num => some (.num (Int.ofNat num))
    | none => some (.str s)
  else if type_name = "core::starknet::contract_address::ContractAddress"
      ∨ type_name = "ContractAddress" ∨ type_name = "contract_address" then
    some (.str s)
  else if type_name = "core::bool" ∨ type_name = "bool" then
    if s = "0x0" ∨ s = "0" then some (.jbool false) else some (.jbool true)
  else if type_name.startsWith "core::integer::i" ∨ signedShortNames.contains type_name then
    match rust_i64_from_hex (trim0x s.data) with
    | some num => some (.num num)
    | none =>
      match rust_i64_from_dec s.data with
      | some num => some (.num num)
      | none => some (.str s)
  else if type_name = "core::byte_array::ByteArray" ∨ type_name = "ByteArray" then
    some (.str (felt_to_string s))
  else if type_name = "core::starknet::class_hash::ClassHash" ∨ type_name = "ClassHash" then
    some (.str s)
  else none

/-- Dispatch of `decode_basic_type` on the JSON value: only string values
are coerced (`value.as_str()` in the source). -/
def decode_basic_type (v : JVal) (type_name : String) : Option JVal :=
  match v with
  | .str s => decode_basic_type_str s type_name
  | _ => none

/-- A single ABI member as materialized by `AbiParser` (`src/starknet.rs`). -/
structure AbiMember where
  name : String
  type_name : String
  is_key : Bool
deriving DecidableEq

/-- A struct/enum/event type definition as materialized by `AbiParser`. -/
structure AbiType where
  name : String
  members : List AbiMember
deriving DecidableEq

/-- Model of `AbiParser::decode_value_recursive`: basic-type coercion
first; struct-, array/span- and option-typed values all fall back to the
raw field element (the source returns the raw value in each of those
branches). -/
def decode_value_recursive (types : List (String × AbiType)) (s : String)
    (type_name : String) : JVal :=
  match decode_basic_type (.str s) type_name with
  | some d => d
  | none =>
    if (types.lookup type_name).isSome then .str s
    else if type_name.startsWith "core::array::Array::<"
        ∨ type_name.startsWith "core::array::Span::<" then .str s
    else if type_name.startsWith "core::option::Option::<" then .str s
    else .str s

/-- Member-by-member decoding loop of `decode_event_using_abi`: key-marked
members consume `keys` slots, the others consume `data` slots; an
exhausted array yields JSON null (`decode_member_from_keys` /
`decode_member_from_data` in the source). -/
def decode_members (types : List (String × AbiType)) (keys data : List String) :
    List AbiMember → Nat → Nat → List (String × JVal)
  | [], _, _ => []
  | m :: rest, key_index, data_index =>
    if m.is_key then
      match keys.get? key_index with
      | some key_val =>
        (m.name, decode_value_recursive types key_val m.type_name)
          :: decode_members types keys data rest (key_index + 1) data_index
      | none => (m.name, .jnull) :: decode_members types keys data rest key_index data_index
    else
      match data.get? data_index with
      | some data_val =>
        (m.name, decode_value_recursive types data_val m.type_name)
          :: decode_members types keys data rest key_index (data_index + 1)
      | none => (m.name, .jnull) :: decode_members types keys data rest key_index data_index

/-- Candidate-selection loop of `decode_event_using_abi`: walk the event
dictionary in the given iteration order and return the first entry with a
non-empty member list, decoded.  The initial key index skips two selector
slots when `keys.length > members.length + 1` and one otherwise, exactly
as in the source. -/
def decode_event_pick (types : List (String × AbiType)) (keys data : List String) :
    List (String × AbiType) → Option (String × List (String × JVal))
  | [] => none
  | (event_name, event_def) :: rest =>
    let key_index := if keys.length > event_def.members.length + 1 then 2 else 1
    let decoded := decode_members types keys data event_def.members key_index 0
    if event_def.members.isEmpty then decode_event_pick types keys data rest
    else some (event_name, decoded ++ [("_keys", .arr keys), ("_raw_data", .arr data)])

/-- Fallback fields `field_0, field_1, ...` of the Unknown-event path. -/
def decode_event_fallback_fields : Nat → List String → List (String × JVal)
  | _, [] => []
  | idx, v :: rest => ("field_" ++ Nat.repr idx, .str v) :: decode_event_fallback_fields (idx + 1) rest

/-- Model of `decode_event_using_abi` in `src/starknet.rs`.  The source
iterates the parser's `events` HashMap, whose iteration order is
unspecified and varies between evaluations; the order is therefore an
explicit argument (`events_order`).  `types` is the parser's struct/enum
dictionary. -/
def decode_event_using_abi (events_order types : List (String × AbiType))
    (keys data : List String) : String × List (String × JVal) :=
  match decode_event_pick types keys data events_order with
  | some r => r
  | none =>
    ("Unknown", decode_event_fallback_fields 0 data
      ++ [("_keys", .arr keys), ("_raw_data", .arr data)])

/-- A raw ABI member/variant entry before validation (the serde JSON
fields `name`, `type`, `kind` read by `parse_type_definition`). -/
structure RawAbiMember where
  name : Option String
  member_type : Option String
  kind : Option String
deriving DecidableEq

/-- A raw ABI item (the serde JSON fields `type`, `name`, `kind`,
`members`, `variants` read by `AbiParser::new`). -/
structure RawAbiItem where
  item_type : Option String
  name : Option String
  kind : Option String
  members : List RawAbiMember
  variants : List RawAbiMember
deriving DecidableEq

/-- One member of `parse_type_definition`: entries missing `name` or
`type` are skipped; variants are never key-marked. -/
def parse_member? (is_variant : Bool) (m : RawAbiMember) : Option AbiMember :=
  match m.name, m.member_type with
  | some n, some t => some ⟨n, t, if is_variant then false else m.kind == some "key"⟩
  | _, _ => none

/-- Model of `AbiParser::parse_type_definition`. -/
def parse_type_definition (item : RawAbiItem) : AbiType :=
  { name := item.name.getD "Unknown"
    members := item.members.filterMap (parse_member? false)
      ++ item.variants.filterMap (parse_member? true) }

/-- Scanner for `name.split("::").last()`: returns the final
`"::"`-separated segment (leftmost-first matching as in Rust `split`),
accumulating the current segment in reverse.  The whole input is returned
when no separator occurs (`unwrap_or(name)` never fires since `split`
always yields at least one segment). -/
def split_dcolon_last_go (acc : List Char) : List Char → List Char
  | [] => acc.reverse
  | ':' :: ':' :: rest => split_dcolon_last_go [] rest
  | c :: rest => split_dcolon_last_go (c :: acc) rest

/-- The last `"::"`-separated segment of a string. -/
def split_dcolon_last (s : String) : String :=
  String.mk (split_dcolon_last_go [] s.data)

/-- HashMap insertion on an association list: replace the value when the
key is present, append otherwise. -/
def assoc_insert (k : String) (v : AbiType) (l : List (String × AbiType)) :
    List (String × AbiType) :=
  if l.any (fun p => p.1 == k) then
    l.map (fun p => if p.1 == k then (k, v) else p)
  else l ++ [(k, v)]

/-- The two dictionaries built by `AbiParser::new`.  The source keeps them
in HashMaps; the association lists here record the content (insertion
order), while the HashMaps' iteration order is unspecified — the decoder
model therefore takes the order as an argument. -/
structure AbiParser where
  types : List (String × AbiType)
  events : List (String × AbiType)
deriving DecidableEq

/-- Per-item step of `AbiParser::new`: structs/enums go to `types`; event
items of kind `struct` go to `events` under the last `::`-separated
segment of their name. -/
def AbiParser.insertItem (p : AbiParser) (item : RawAbiItem) : AbiParser :=
  match item.item_type, item.name with
  | some t, some n =>
    if t = "struct" ∨ t = "enum" then
      { p with types := assoc_insert n (parse_type_definition item) p.types }
    else if t = "event" then
      if item.kind = some "struct" then
        let short_name := split_dcolon_last n
        { p with events := assoc_insert short_name (parse_type_definition item) p.events }
      else p
    else p
  | _, _ => p

/-- Model of `AbiParser::new` in `src/starknet.rs`. -/
def AbiParser.new (abi : List RawAbiItem) : AbiParser :=
  abi.foldl AbiParser.insertItem { types := [], events := [] }

/-- Leading-zero stripping, `trim_start_matches('0')`. -/
def trimLeadingZeros : List Char → List Char
  | [] => []
  | c :: cs => if c = '0' then trimLeadingZeros cs else c :: cs

/-- Model of `Database::normalize_address` (`src/database.rs`) on
character lists: inputs not starting with `"0x"` pass through; otherwise
strip `"0x"`, drop leading zeros (an all-zero remainder becomes `"0"`),
left-pad with `'0'` to 64 characters (`format!("{:0>64}")` does not
truncate longer inputs) and re-prefix `"0x"`. -/
def normalize_chars : List Char → List Char
  | '0' :: 'x' :: rest =>
    let trimmed := trimLeadingZeros rest
    let hex_part := if trimmed.isEmpty then ['0'] else trimmed
    let padded := List.replicate (64 - hex_part.length) '0' ++ hex_part
    '0' :: 'x' :: padded
  | cs => cs

/-- `Database::normalize_address` on strings. -/
def normalize_address (address : String) : String :=
  String.mk (normalize_chars address.data)

/-- The stored event row (`EventRecord` in `src/database.rs`); the
wall-clock `timestamp` column is not modelled, and the decoded payload is
kept structured instead of JSON-serialized. -/
structure EventRecord where
  id : String
  contract_address : String
  event_type : String
  block_number : Nat
  transaction_hash : String
  log_index : Nat
  decoded_data : Option (List (String × JVal))
  raw_data : List String
  raw_keys : List String
deriving DecidableEq

/-- A raw event object from a `starknet_getEvents` response, with the
fields `sync_block_range` reads (missing fields decay to defaults via
`unwrap_or` in the source). -/
structure RawEvent where
  transaction_hash : Option String
  block_number : Option Nat
  keys : List String
  data : List String
deriving DecidableEq

/-- Substring test on character lists (Rust `str::contains`). -/
def charListContains : List Char → List Char → Bool
  | [], needle => needle.isEmpty
  | hay@(_ :: t), needle => needle.isPrefixOf hay || charListContains t needle

/-- The configured-filter step of `sync_block_range`: keep an event iff
its decoded type is in `event_types` (when configured) and some raw key
has some configured key as a substring (when configured). -/
def keep_filters (cfg_event_types cfg_event_keys : Option (List String))
    (event_type : String) (ev : RawEvent) : Bool :=
  (match cfg_event_types with
   | some filter_types => filter_types.contains event_type
   | none => true)
  && (match cfg_event_keys with
      | some filter_keys =>
        filter_keys.any (fun fk => ev.keys.any (fun k => charListContains k.data fk.data))
      | none => true)

/-- Record-construction loop of `sync_block_range` (`src/indexer.rs`):
`idx` enumerates the whole response array (also past filtered-out
events), and both the record id and the stored `log_index` use this
enumeration index, not a chain-global log index. -/
def sync_block_range_go (cfg_event_types cfg_event_keys : Option (List String))
    (contract_address : String) (events_order types : List (String × AbiType)) :
    Nat → List RawEvent → List EventRecord
  | _, [] => []
  | idx, ev :: rest =>
    let decoded_pair := decode_event_using_abi events_order types ev.keys ev.data
    let tx_hash := ev.transaction_hash.getD ""
    if keep_filters cfg_event_types cfg_event_keys decoded_pair.1 ev then
      { id := tx_hash ++ ":" ++ Nat.repr idx
        contract_address := normalize_address contract_address
        event_type := decoded_pair.1
        block_number := ev.block_number.getD 0
        transaction_hash := tx_hash
        log_index := idx
        decoded_data := some decoded_pair.2
        raw_data := ev.data
        raw_keys := ev.keys }
        :: sync_block_range_go cfg_event_types cfg_event_keys contract_address
            events_order types (idx + 1) rest
    else
      sync_block_range_go cfg_event_types cfg_event_keys contract_address
        events_order types (idx + 1) rest

/-- The records built and persisted by one `sync_block_range` call for a
given RPC response event array. -/
def sync_block_range_records (cfg_event_types cfg_event_keys : Option (List String))
    (contract_address : String) (events_order types : List (String × AbiType))
    (events_array : List RawEvent) : List EventRecord :=
  sync_block_range_go cfg_event_types cfg_event_keys contract_address
    events_order types 0 events_array

/-- The event-type-filtered branch of `Database::get_events`
(`src/database.rs`): the SQL in this branch has no LIMIT/OFFSET, then the
Rust loop runs `rows.into_iter().take(limit).skip(offset)` — take first,
skip second — and applies the type filter in memory. -/
def get_events_typed_branch (rows : List EventRecord) (filter_types : List String)
    (limit offset : Nat) : List EventRecord :=
  ((rows.take limit).drop offset).filter (fun r => filter_types.contains r.event_type)

/-- One HTTP exchange as seen by `rpc_call`: the response status and the
result of JSON-parsing the body (`none` models a parse failure). -/
structure RpcHttpResponse where
  status : Nat
  parsed : Option JVal
deriving DecidableEq

/-- Error outcomes of `rpc_call` (the source formats message strings;
only the kind is modelled). -/
inductive RpcError where
  | network
  | rateLimitExhausted
  | httpStatus (code : Nat)
  | parseFailure
deriving DecidableEq

/-- Result of `rpc_call`: the parsed JSON on success, an error kind
otherwise. -/
inductive RpcOutcome where
  | ok (v : JVal)
  | error (e : RpcError)
deriving DecidableEq

/-- Retry loop of `rpc_call` (`src/starknet.rs`), with `max_retries = 3`
hardcoded as in the source.  The environment is modelled as the list of
successive HTTP responses; the returned list collects the sleep durations
(seconds) performed before retries.  `attempt` is incremented at the top
of the loop, so the first request is attempt 1 and a 429 on attempt `a`
sleeps `min(2^a, 30)` seconds iff `a ≤ 3`. -/
def rpc_call_loop (attempt : Nat) : List RpcHttpResponse → List Nat × RpcOutcome
  | [] => ([], .error .network)
  | r :: rest =>
    if r.status = 429 then
      if attempt + 1 ≤ 3 then
        let rec_result := rpc_call_loop (attempt + 1) rest
        (min (2 ^ (attempt + 1)) 30 :: rec_result.1, rec_result.2)
      else ([], .error .rateLimitExhausted)
    else if ¬ (200 ≤ r.status ∧ r.status ≤ 299) then ([], .error (.httpStatus r.status))
    else
      match r.parsed with
      | some v => ([], .ok v)
      | none => ([], .error .parseFailure)

/-- `rpc_call` entry point: attempt counter starts at 0. -/
def rpc_call (responses : List RpcHttpResponse) : List Nat × RpcOutcome :=
  rpc_call_loop 0 responses

/-- The fields of a published event read by `matches_filter`
(`src/realtime.rs`). -/
structure RtEvent where
  contract_address : String
  event_type : String
  raw_keys : List String
deriving DecidableEq

/-- `SubscriptionFilter` from `src/realtime.rs`: the type and key sets
are `Option<Vec<String>>`. -/
structure SubscriptionFilter where
  contract_address : String
  event_types : Option (List String)
  event_keys : Option (List String)
deriving DecidableEq

/-- A registered subscription (the sender channel is not modelled; the
broadcast model returns the matched subscriptions instead). -/
structure Subscription where
  id : String
  filter : SubscriptionFilter
deriving DecidableEq

/-- Event-type conjunct of `matches_filter`: a `Some` list filters by
membership (so `Some(vec![])` rejects everything), `None` passes. -/
def filter_types_ok (event : RtEvent) (filter : SubscriptionFilter) : Bool :=
  match filter.event_types with
  | some event_types => event_types.contains event.event_type
  | none => true

/-- Event-key conjunct of `matches_filter`: a `Some` list must intersect
the event's raw keys (`is_disjoint` in the source, so `Some(vec![])` is
disjoint from everything and rejects), `None` passes. -/
def filter_keys_ok (event : RtEvent) (filter : SubscriptionFilter) : Bool :=
  match filter.event_keys with
  | some event_keys => event_keys.any (fun k => event.raw_keys.contains k)
  | none => true

/-- Model of `RealtimeEventManager::matches_filter`. -/
def matches_filter (event : RtEvent) (filter : SubscriptionFilter) : Bool :=
  event.contract_address == filter.contract_address
    && filter_types_ok event filter
    && filter_keys_ok event filter

/-- Model of the selection performed by
`RealtimeEventManager::broadcast_event`: the subscriptions whose sender
is cloned and sent to are exactly those whose filter matches. -/
def broadcast_matched (event : RtEvent) (subs : List Subscription) : List Subscription :=
  subs.filter (fun s => matches_filter event s.filter)

/-- Shared state of the two ingestion tasks spawned by `start_syncing`
(`src/indexer.rs`): the persisted cursor (`indexer_state.last_synced_block`,
`none` before the first write), the historical task's local `from_block`
and the `current_block` it read once at start, and the chain tip the
tailing task observes. -/
structure SyncState where
  cursor : Option Nat
  histFrom : Nat
  histCurrent : Nat
  chain : Nat
deriving DecidableEq

/-- One successful window of `sync_historical_data`: while
`from_block < current_block`, process `[from_block, min(from_block + chunk_size, current_block)]`,
write the cursor to the window's upper bound and continue from the next
block. -/
def histWindowOkStep (chunk : Nat) (s : SyncState) : SyncState :=
  if s.histFrom < s.histCurrent then
    let to_block := min (s.histFrom + chunk) s.histCurrent
    { s with cursor := some to_block, histFrom := to_block + 1 }
  else s

/-- One failed window of `sync_historical_data`: the error branch logs
and does not update the indexer state, but `from_block` still advances to
the next window. -/
def histWindowErrStep (chunk : Nat) (s : SyncState) : SyncState :=
  if s.histFrom < s.histCurrent then
    let to_block := min (s.histFrom + chunk) s.histCurrent
    { s with histFrom := to_block + 1 }
  else s

/-- One successful pass of `sync_latest_blocks`: no state row or no new
blocks is a no-op; otherwise sync `[last_synced + 1, current_block]` and
write the cursor to `current_block`. -/
def tailSyncStep (s : SyncState) : SyncState :=
  match s.cursor with
  | none => s
  | some last_synced =>
    if last_synced < s.chain then { s with cursor := some s.chain } else s

/-- Interleaved small-step semantics of the two concurrently running
ingestion tasks, plus chain growth. -/
inductive IndexerStep (chunk : Nat) : SyncState → SyncState → Prop
  | hist_ok (s : SyncState) : IndexerStep chunk s (histWindowOkStep chunk s)
  | hist_err (s : SyncState) : IndexerStep chunk s (histWindowErrStep chunk s)
  | tail_sync (s : SyncState) : IndexerStep chunk s (tailSyncStep s)
  | chain_adv (s : SyncState) (n : Nat) (h : s.chain ≤ n) :
      IndexerStep chunk s { s with chain := n }

/-- Fuel-indexed unfolding of the `while from_block < current_block` loop
of `sync_historical_data`, collecting the processed `[from, to]` windows;
the fuel `current_block - from_block` bounds the iteration count since
each iteration advances `from_block` by at least one. -/
def historical_windows_go : Nat → Nat → Nat → Nat → List (Nat × Nat)
  | 0, _, _, _ => []
  | fuel + 1, from_block, current_block, chunk =>
    if from_block < current_block then
      let to_block := min (from_block + chunk) current_block
      (from_block, to_block) :: historical_windows_go fuel (to_block + 1) current_block chunk
    else []

/-- The fetch windows issued by `sync_historical_data` from a starting
cursor, chain height and chunk size. -/
def historical_windows (from_block current_block chunk : Nat) : List (Nat × Nat) :=
  historical_windows_go (current_block - from_block) from_block current_block chunk

/-- Lemma: a `histWindowErrStep` never changes the persisted cursor. -/
theorem histWindowErrStep_cursor (chunk : Nat) (s : SyncState) :
    (histWindowErrStep chunk s).cursor = s.cursor := by
  unfold histWindowErrStep
  split <;> rfl

/-- C3: on HTTP 429 the wrapper retries up to 3 times, sleeping
`min(2^attempt, 30)` seconds before each retry — 2 s before the first
retry, 4 s before the second (and 8 s before the third) — and returns an
error once the retries are exhausted; any other non-2xx status fails
immediately with no retry and no sleep. -/
theorem rpc_call_retries_on_429 :
    (∀ (a b ok : RpcHttpResponse) (rest : List RpcHttpResponse) (v : JVal),
      a.status = 429 → b.status = 429 → ok.status = 200 → ok.parsed = some v →
      rpc_call (a :: b :: ok :: rest) = ([min (2 ^ 1) 30, min (2 ^ 2) 30], .ok v))
    ∧ (∀ (a b c d : RpcHttpResponse) (rest : List RpcHttpResponse),
      a.status = 429 → b.status = 429 → c.status = 429 → d.status = 429 →
      rpc_call (a :: b :: c :: d :: rest)
        = ([min (2 ^ 1) 30, min (2 ^ 2) 30, min (2 ^ 3) 30], .error .rateLimitExhausted))
    ∧ (∀ (r : RpcHttpResponse) (rest : List RpcHttpResponse),
      r.status ≠ 429 → ¬ (200 ≤ r.status ∧ r.status ≤ 299) →
      rpc_call (r :: rest) = ([], .error (.httpStatus r.status))) := by
  refine ⟨?_, ?_, ?_⟩
  · intro a b ok rest v ha hb hok hv
    simp [rpc_call, rpc_call_loop, ha, hb, hok, hv]
  · intro a b c d rest ha hb hc hd
    simp [rpc_call, rpc_call_loop, ha, hb, hc, hd]
  · intro r rest hne hfail
    simp [rpc_call, rpc_call_loop, hne, hfail]

/-- Witness for C3: the S3 scenario (429, 429, then success) sleeps 2 s
and 4 s and succeeds; four 429s sleep 2, 4, 8 s and error out; HTTP 500
fails at once. -/
theorem rpc_call_retries_on_429_witness :
    rpc_call [⟨429, none⟩, ⟨429, none⟩, ⟨200, some (.str "ok")⟩]
        = ([2, 4], .ok (.str "ok"))
      ∧ rpc_call [⟨429, none⟩, ⟨429, none⟩, ⟨429, none⟩, ⟨429, none⟩]
        = ([2, 4, 8], .error .rateLimitExhausted)
      ∧ rpc_call [⟨500, none⟩] = ([], .error (.httpStatus 500)) :=
  ⟨rpc_call_retries_on_429.1 ⟨429, none⟩ ⟨429, none⟩ ⟨200, some (.str "ok")⟩ []
      (.str "ok") rfl rfl rfl rfl,
   rpc_call_retries_on_429.2.1 ⟨429, none⟩ ⟨429, none⟩ ⟨429, none⟩ ⟨429, none⟩ []
      rfl rfl rfl rfl,
   rpc_call_retries_on_429.2.2 ⟨500, none⟩ [] (by decide) (by decide)⟩

/-- C9 counterexample: with `start_block = 0`, `current_block = 5000` and
`chunk_size = 2000`, the historical loop does not issue the windows
`[0,2000], [2001,4000], [4001,5000]` claimed by the spec — the upper
bound of each window is `from + chunk_size`, not `from + chunk_size - 1`. -/
theorem historical_windows_counterexample :
    historical_windows 0 5000 2000 ≠ [(0, 2000), (2001, 4000), (4001, 5000)] := by
  decide

/-- C9 (amended): with `start_block = 0`, `current_block = 5000` and
`chunk_size = 2000`, the historical loop issues exactly the windows
`[0,2000], [2001,4001], [4002,5000]`; the last window ends at 5000, so
the final cursor write stores `last_synced_block = 5000`, and every
window (hence every fetched event's block number) lies within
`[0,5000]`. -/
theorem historical_windows_backfill :
    historical_windows 0 5000 2000 = [(0, 2000), (2001, 4001), (4002, 5000)]
      ∧ ((historical_windows 0 5000 2000).map Prod.snd).getLast? = some 5000
      ∧ ∀ w ∈ historical_windows 0 5000 2000, w.1 ≤ w.2 ∧ w.2 ≤ 5000 := by
  refine ⟨by decide, by decide, ?_⟩
  decide

/-- C10: in the event-type-filtered branch of `Database::get_events` the
first `limit` ordered rows are taken and only then `offset` of them are
skipped, before the in-memory type filter runs; consequently the result
has at most `limit - offset` elements, it is empty whenever
`offset ≥ limit`, and every returned row comes from the first `limit`
ordered rows — matching rows beyond them are never returned. -/
theorem get_events_typed_branch_truncates (rows : List EventRecord)
    (filter_types : List String) (limit offset : Nat)
    (hne : filter_types ≠ []) (hoff : 0 < offset) :
    (get_events_typed_branch rows filter_types limit offset).length ≤ limit - offset
      ∧ (limit ≤ offset → get_events_typed_branch rows filter_types limit offset = [])
      ∧ ∀ r ∈ get_events_typed_branch rows filter_types limit offset, r ∈ rows.take limit := by
  refine ⟨?_, ?_, ?_⟩
  · calc (get_events_typed_branch rows filter_types limit offset).length
        ≤ ((rows.take limit).drop offset).length := List.length_filter_le _ _
      _ = (rows.take limit).length - offset := List.length_drop _ _
      _ ≤ limit - offset := by
          have h := List.length_take_le limit rows
          omega
  · intro hle
    have hnil : (rows.take limit).drop offset = [] := by
      apply List.drop_eq_nil_of_le
      have h := List.length_take_le limit rows
      omega
    simp [get_events_typed_branch, hnil]
  · intro r hr
    have hr2 : r ∈ (rows.take limit).drop offset := List.mem_of_mem_filter hr
    exact List.mem_of_mem_drop hr2

/-- Witness for C10: two matching rows, `limit = 1`, `offset = 1` — the
result is empty even though both rows match the type filter. -/
theorem get_events_typed_branch_truncates_witness :
    (["Transfer"] ≠ ([] : List String)) ∧ 0 < 1
      ∧ ((get_events_typed_branch
            [⟨"t:0", "0xc", "Transfer", 1, "t", 0, none, [], []⟩,
             ⟨"t:1", "0xc", "Transfer", 2, "t", 1, none, [], []⟩]
            ["Transfer"] 1 1).length ≤ 1 - 1
          ∧ (1 ≤ 1 → get_events_typed_branch
            [⟨"t:0", "0xc", "Transfer", 1, "t", 0, none, [], []⟩,
             ⟨"t:1", "0xc", "Transfer", 2, "t", 1, none, [], []⟩]
            ["Transfer"] 1 1 = [])
          ∧ ∀ r ∈ get_events_typed_branch
            [⟨"t:0", "0xc", "Transfer", 1, "t", 0, none, [], []⟩,
             ⟨"t:1", "0xc", "Transfer", 2, "t", 1, none, [], []⟩]
            ["Transfer"] 1 1,
            r ∈ ([⟨"t:0", "0xc", "Transfer", 1, "t", 0, none, [], []⟩,
                  ⟨"t:1", "0xc", "Transfer", 2, "t", 1, none, [], []⟩] : List EventRecord).take 1) :=
  ⟨by decide, by decide,
   get_events_typed_branch_truncates
     [⟨"t:0", "0xc", "Transfer", 1, "t", 0, none, [], []⟩,
      ⟨"t:1", "0xc", "Transfer", 2, "t", 1, none, [], []⟩]
     ["Transfer"] 1 1 (by decide) (by decide)⟩

/-- Lemma: leading-zero trimming ignores a prepended block of zeros. -/
theorem trimLeadingZeros_replicate_append (n : Nat) (l : List Char) :
    trimLeadingZeros (List.replicate n '0' ++ l) = trimLeadingZeros l := by
  induction n with
  | zero => simp
  | succ k ih => simpa [List.replicate_succ, trimLeadingZeros] using ih

/-- Lemma: the output of leading-zero trimming is empty or starts with a
non-zero character. -/
theorem trimLeadingZeros_shape (l : List Char) :
    trimLeadingZeros l = [] ∨ ∃ c cs, trimLeadingZeros l = c :: cs ∧ c ≠ '0' := by
  induction l with
  | nil => exact Or.inl rfl
  | cons c cs ih =>
    by_cases h : c = '0'
    · simpa [trimLeadingZeros, h] using ih
    · exact Or.inr ⟨c, cs, by simp [trimLeadingZeros, h], h⟩

/-- Lemma: trimming a list that starts with a non-zero character is the
identity. -/
theorem trimLeadingZeros_cons_ne {c : Char} (cs : List Char) (h : c ≠ '0') :
    trimLeadingZeros (c :: cs) = c :: cs := by
  simp [trimLeadingZeros, h]

/-- Unfolding of `normalize_chars` on a `"0x"`-prefixed character list. -/
theorem normalize_chars_on_0x (rest : List Char) :
    normalize_chars ('0' :: 'x' :: rest) =
      '0' :: 'x' ::
        (List.replicate
            (64 - (if (trimLeadingZeros rest).isEmpty then ['0']
                   else trimLeadingZeros rest).length) '0'
          ++ (if (trimLeadingZeros rest).isEmpty then ['0'] else trimLeadingZeros rest)) := rfl

/-- Unfolding of `normalize_chars` when the zero-trimmed remainder is
empty. -/
theorem normalize_chars_on_0x_nil {rest : List Char}
    (hnil : trimLeadingZeros rest = []) :
    normalize_chars ('0' :: 'x' :: rest) = '0' :: 'x' :: (List.replicate 63 '0' ++ ['0']) := by
  rw [normalize_chars_on_0x, hnil]
  rfl

/-- Unfolding of `normalize_chars` when the zero-trimmed remainder is
non-empty. -/
theorem normalize_chars_on_0x_cons {rest : List Char} {c : Char} {cs : List Char}
    (hcons : trimLeadingZeros rest = c :: cs) :
    normalize_chars ('0' :: 'x' :: rest)
      = '0' :: 'x' :: (List.replicate (64 - (c :: cs).length) '0' ++ (c :: cs)) := by
  rw [normalize_chars_on_0x, hcons]
  rfl

/-- Unfolding of `normalize_chars` on a single-character list. -/
theorem normalize_chars_single (a : Char) : normalize_chars [a] = [a] := by
  rw [normalize_chars.eq_def]
  split
  · rename_i heq
    exact absurd heq (by simp)
  · rfl

/-- Unfolding of `normalize_chars` on a list not starting with `"0x"`. -/
theorem normalize_chars_passthrough {a b : Char} (rest : List Char)
    (hab : ¬ (a = '0' ∧ b = 'x')) :
    normalize_chars (a :: b :: rest) = a :: b :: rest := by
  rw [normalize_chars.eq_def]
  split
  · rename_i heq
    rw [List.cons.injEq, List.cons.injEq] at heq
    exact absurd ⟨heq.1, heq.2.1⟩ hab
  · rfl

/-- Lemma: `normalize_chars` is idempotent on character lists. -/
theorem normalize_chars_idem (l : List Char) :
    normalize_chars (normalize_chars l) = normalize_chars l := by
  rcases l with _ | ⟨a, _ | ⟨b, rest⟩⟩
  · rfl
  · rw [normalize_chars_single, normalize_chars_single]
  · by_cases hab : a = '0' ∧ b = 'x'
    · obtain ⟨ha, hb⟩ := hab
      subst ha; subst hb
      rcases trimLeadingZeros_shape rest with hnil | ⟨c, cs, hcons, hc⟩
      · rw [normalize_chars_on_0x_nil hnil]
        have h2 : trimLeadingZeros (List.replicate 63 '0' ++ ['0']) = [] := by
          rw [trimLeadingZeros_replicate_append]
          rfl
        rw [normalize_chars_on_0x_nil h2]
      · rw [normalize_chars_on_0x_cons hcons]
        have h2 : trimLeadingZeros (List.replicate (64 - (c :: cs).length) '0' ++ (c :: cs))
            = c :: cs := by
          rw [trimLeadingZeros_replicate_append]
          exact trimLeadingZeros_cons_ne cs hc
        rw [normalize_chars_on_0x_cons h2]
    · rw [normalize_chars_passthrough rest hab, normalize_chars_passthrough rest hab]

/-- C4 counterexample: the claim's length clause fails — for an address
whose hex part has 65 digits, `normalize_address` returns 67 characters,
since `format!` pads but never truncates. -/
theorem normalize_address_counterexample :
    ¬ (∀ x : String, ['0', 'x'].isPrefixOf x.data = true → (normalize_address x).length = 66) := by
  intro h
  have h65 := h "0x11111111111111111111111111111111111111111111111111111111111111111"
    (by decide)
  exact absurd h65 (by decide)

/-- C4 (amended): `normalize_address` is idempotent for every string, and
for every string starting with `"0x"` whose remainder has at most 64 hex
digits after dropping leading zeros, the normalized form is exactly 66
characters long (longer remainders are kept whole, giving more than 66). -/
theorem normalize_address_canonical :
    (∀ x : String, normalize_address (normalize_address x) = normalize_address x)
      ∧ ∀ (x : String) (rest : List Char), x.data = '0' :: 'x' :: rest →
          (trimLeadingZeros rest).length ≤ 64 → (normalize_address x).length = 66 := by
  constructor
  · intro x
    show String.mk (normalize_chars (normalize_chars x.data)) = String.mk (normalize_chars x.data)
    rw [normalize_chars_idem]
  · intro x rest hx hlen
    show (normalize_chars x.data).length = 66
    rw [hx, normalize_chars_on_0x]
    by_cases he : (trimLeadingZeros rest).isEmpty
    · simp [he]
    · simp only [he, if_neg Bool.false_ne_true, List.length_cons, List.length_append,
        List.length_replicate]
      omega

/-- Witness for C4: idempotence at `"0xab"`, and the 66-character shape
at `"0x01"`. -/
theorem normalize_address_canonical_witness :
    normalize_address (normalize_address "0xab") = normalize_address "0xab"
      ∧ (normalize_address "0x01").length = 66 :=
  ⟨normalize_address_canonical.1 "0xab",
   normalize_address_canonical.2 "0x01" ['0', '1'] rfl (by decide)⟩

/-- C5 counterexample: for the `u256` value `0x10000000000000000` (which
is `2^64`, exceeding `2^64 - 1`), the decoder does not return the decimal
string of the number — it returns the original hex string unchanged,
because the `u256` arm only attempts a `u64` parse and falls back to the
raw string. -/
theorem decode_u256_counterexample :
    ¬ (∀ (s : String) (n : Nat), hexNat? (stripPlus (trim0x s.data)) = some n →
        2 ^ 64 - 1 < n → decode_basic_type (.str s) "u256" = some (.str (Nat.repr n))) := by
  intro h
  have hx := h "0x10000000000000000" (2 ^ 64) (by decide) (by decide)
  exact absurd hx (by decide)

/-- C5 (amended): for an event member of ABI type `u256` whose value is a
hex string of numeric value `n`, the decoder returns the JSON number `n`
when `n ≤ 2^64 - 1`, and otherwise returns the original hex string
unchanged (precision is preserved in hex form, not as a decimal
string). -/
theorem decode_u256_value (s : String) (n : Nat)
    (h : hexNat? (stripPlus (trim0x s.data)) = some n) :
    (n < 2 ^ 64 → decode_basic_type (.str s) "u256" = some (.num (Int.ofNat n)))
      ∧ (2 ^ 64 ≤ n → decode_basic_type (.str s) "u256" = some (.str s)) := by
  have hb : decode_basic_type (.str s) "u256"
      = (match rust_u64_from_hex (trim0x s.data) with
         | some num => some (.num (Int.ofNat num))
         | none => some (.str s)) := by
    show decode_basic_type_str s "u256" = _
    unfold decode_basic_type_str
    rw [if_neg (by decide), if_neg (by decide), if_pos (by decide)]
  constructor
  · intro hlt
    rw [hb]
    unfold rust_u64_from_hex
    rw [h]
    have hif : (if n < 18446744073709551616 then some n else none) = some n :=
      if_pos (by omega)
    simp [hif]
  · intro hge
    rw [hb]
    unfold rust_u64_from_hex
    rw [h]
    have hif : (if n < 18446744073709551616 then some n else none) = none :=
      if_neg (by omega)
    simp [hif]

/-- Witness for C5: `0x64` decodes to the number 100; `2^64` in hex comes
back as the untouched hex string. -/
theorem decode_u256_value_witness :
    decode_basic_type (.str "0x64") "u256" = some (.num (Int.ofNat 100))
      ∧ decode_basic_type (.str "0x10000000000000000") "u256"
        = some (.str "0x10000000000000000") :=
  ⟨(decode_u256_value "0x64" 100 (by decide)).1 (by decide),
   (decode_u256_value "0x10000000000000000" (2 ^ 64) (by decide)).2 (by decide)⟩

/-- Lemma: `ContractAddress` values pass through `decode_basic_type`
unchanged. -/
theorem decode_basic_type_contract_address (s : String) :
    decode_basic_type (.str s) "ContractAddress" = some (.str s) := by
  show decode_basic_type_str s "ContractAddress" = some (.str s)
  unfold decode_basic_type_str
  rw [if_neg (by decide), if_neg (by decide), if_neg (by decide), if_pos (by decide)]

/-- Lemma: `ContractAddress` values pass through `decode_value_recursive`
unchanged. -/
theorem decode_value_recursive_contract_address (types : List (String × AbiType)) (s : String) :
    decode_value_recursive types s "ContractAddress" = .str s := by
  unfold decode_value_recursive
  rw [decode_basic_type_contract_address]

/-- Modelled from the spec for comparison with the implementation (C6):
candidate-selection loop whose prefix skipping tests
`len(keys) > len(members where is_key) + 1` — the count of key-marked
members — where the implementation tests the total member count. -/
def decode_event_pick_specSkip (types : List (String × AbiType)) (keys data : List String) :
    List (String × AbiType) → Option (String × List (String × JVal))
  | [] => none
  | (event_name, event_def) :: rest =>
    let key_index :=
      if keys.length > (event_def.members.filter (fun m => m.is_key)).length + 1 then 2 else 1
    let decoded := decode_members types keys data event_def.members key_index 0
    if event_def.members.isEmpty then decode_event_pick_specSkip types keys data rest
    else some (event_name, decoded ++ [("_keys", .arr keys), ("_raw_data", .arr data)])

/-- The spec-worded variant of `decode_event_using_abi` (C6), differing
only in the prefix-skipping condition. -/
def decode_event_using_abi_specSkip (events_order types : List (String × AbiType))
    (keys data : List String) : String × List (String × JVal) :=
  match decode_event_pick_specSkip types keys data events_order with
  | some r => r
  | none =>
    ("Unknown", decode_event_fallback_fields 0 data
      ++ [("_keys", .arr keys), ("_raw_data", .arr data)])

/-- C6 counterexample: an event whose members are one key member and two
data members, with 3 key slots in the log.  The claim's condition
(`3 > 1 + 1`) demands skipping two slots, so `from` would read the third
key; the implementation compares against the total member count
(`3 > 3 + 1` fails), skips only one slot, and `from` reads the second
key.  The two decoders disagree on this input. -/
theorem decode_event_skip_counterexample :
    ((decode_event_using_abi
        [("Transfer", ⟨"Transfer",
          [⟨"from", "ContractAddress", true⟩, ⟨"a", "ContractAddress", false⟩,
           ⟨"b", "ContractAddress", false⟩]⟩)]
        [] ["0xsel", "0xk1", "0xk2"] ["0xd1", "0xd2"]).2.lookup "from"
      = some (.str "0xk1"))
    ∧ ((decode_event_using_abi_specSkip
        [("Transfer", ⟨"Transfer",
          [⟨"from", "ContractAddress", true⟩, ⟨"a", "ContractAddress", false⟩,
           ⟨"b", "ContractAddress", false⟩]⟩)]
        [] ["0xsel", "0xk1", "0xk2"] ["0xd1", "0xd2"]).2.lookup "from"
      = some (.str "0xk2"))
    ∧ decode_event_using_abi
        [("Transfer", ⟨"Transfer",
          [⟨"from", "ContractAddress", true⟩, ⟨"a", "ContractAddress", false⟩,
           ⟨"b", "ContractAddress", false⟩]⟩)]
        [] ["0xsel", "0xk1", "0xk2"] ["0xd1", "0xd2"]
      ≠ decode_event_using_abi_specSkip
        [("Transfer", ⟨"Transfer",
          [⟨"from", "ContractAddress", true⟩, ⟨"a", "ContractAddress", false⟩,
           ⟨"b", "ContractAddress", false⟩]⟩)]
        [] ["0xsel", "0xk1", "0xk2"] ["0xd1", "0xd2"] :=
  ⟨by decide, by decide, by decide⟩

/-- C6 (amended): the decoder skips the first two key slots when
`len(keys) > len(members) + 1` — the total member count, not the count of
key-marked members — and otherwise skips exactly one, before assigning
the remaining key slots to key-marked members in declaration order;
observed here on the first key-marked member of the matched event. -/
theorem decode_event_skip_by_member_count (evName mName : String) (rest : List AbiMember)
    (keys data : List String) (types : List (String × AbiType)) (k1 k2 : String) :
    (keys.length > rest.length + 2 → keys.get? 2 = some k2 →
      (decode_event_using_abi
        [(evName, ⟨evName, ⟨mName, "ContractAddress", true⟩ :: rest⟩)]
        types keys data).2.lookup mName = some (.str k2))
    ∧ (¬ keys.length > rest.length + 2 → keys.get? 1 = some k1 →
      (decode_event_using_abi
        [(evName, ⟨evName, ⟨mName, "ContractAddress", true⟩ :: rest⟩)]
        types keys data).2.lookup mName = some (.str k1)) := by
  constructor
  · intro hgt h2
    have hpick : decode_event_pick types keys data
        [(evName, AbiType.mk evName (AbiMember.mk mName "ContractAddress" true :: rest))]
        = some (evName,
            decode_members types keys data (AbiMember.mk mName "ContractAddress" true :: rest) 2 0
              ++ [("_keys", .arr keys), ("_raw_data", .arr data)]) := by
      simp only [decode_event_pick, List.isEmpty_cons, Bool.false_eq_true, if_false]
      rw [if_pos (by simp only [List.length_cons]; omega)]
    have h2g : keys[2]? = some k2 := by
      rw [← List.get?_eq_getElem?]
      exact h2
    have hdm : decode_members types keys data
        (AbiMember.mk mName "ContractAddress" true :: rest) 2 0
        = (mName, .str k2) :: decode_members types keys data rest 3 0 := by
      simp [decode_members, h2g, decode_value_recursive_contract_address]
    unfold decode_event_using_abi
    rw [hpick]
    simp [hdm, List.lookup]
  · intro hle h1
    have hpick : decode_event_pick types keys data
        [(evName, AbiType.mk evName (AbiMember.mk mName "ContractAddress" true :: rest))]
        = some (evName,
            decode_members types keys data (AbiMember.mk mName "ContractAddress" true :: rest) 1 0
              ++ [("_keys", .arr keys), ("_raw_data", .arr data)]) := by
      simp only [decode_event_pick, List.isEmpty_cons, Bool.false_eq_true, if_false]
      rw [if_neg (by simp only [List.length_cons]; omega)]
    have h1g : keys[1]? = some k1 := by
      rw [← List.get?_eq_getElem?]
      exact h1
    have hdm : decode_members types keys data
        (AbiMember.mk mName "ContractAddress" true :: rest) 1 0
        = (mName, .str k1) :: decode_members types keys data rest 2 0 := by
      simp [decode_members, h1g, decode_value_recursive_contract_address]
    unfold decode_event_using_abi
    rw [hpick]
    simp [hdm, List.lookup]

/-- Witness for C6: with 4 key slots and 2 members (`4 > 3`), two slots
are skipped and `from` reads the third key slot; with 2 key slots and 2
members, one slot is skipped and `from` reads the second. -/
theorem decode_event_skip_by_member_count_witness :
    (decode_event_using_abi
        [("E", ⟨"E", [⟨"from", "ContractAddress", true⟩, ⟨"x", "ContractAddress", false⟩]⟩)]
        [] ["0xa", "0xb", "0xc", "0xd"] ["0xv"]).2.lookup "from" = some (.str "0xc")
    ∧ (decode_event_using_abi
        [("E", ⟨"E", [⟨"from", "ContractAddress", true⟩, ⟨"x", "ContractAddress", false⟩]⟩)]
        [] ["0xa", "0xb"] ["0xv"]).2.lookup "from" = some (.str "0xb") :=
  ⟨(decode_event_skip_by_member_count "E" "from" [⟨"x", "ContractAddress", false⟩]
      ["0xa", "0xb", "0xc", "0xd"] ["0xv"] [] "0xb" "0xc").1 (by decide) (by decide),
   (decode_event_skip_by_member_count "E" "from" [⟨"x", "ContractAddress", false⟩]
      ["0xa", "0xb"] ["0xv"] [] "0xb" "0xc").2 (by decide) (by decide)⟩

/-- Lemma: characterization of `matches_filter` — the address must match
exactly, an absent (`None`) type set passes while a present set filters by
membership, and an absent key set passes while a present set must
intersect the event's raw keys. -/
theorem matches_filter_iff (event : RtEvent) (filter : SubscriptionFilter) :
    matches_filter event filter = true ↔
      (event.contract_address = filter.contract_address
        ∧ (match filter.event_types with
           | some ts => event.event_type ∈ ts
           | none => True)
        ∧ (match filter.event_keys with
           | some ks => ∃ k ∈ ks, k ∈ event.raw_keys
           | none => True)) := by
  rcases filter with ⟨fa, ft, fk⟩
  cases ft <;> cases fk <;>
    simp [matches_filter, filter_types_ok, filter_keys_ok, List.any_eq_true, and_assoc]

/-- C7 counterexample: the claim reads an empty filter set as
unrestricted, but the code distinguishes `None` from `Some(vec![])` — a
subscription with `event_types = Some(vec![])` matches nothing, so an
event the claim says must be delivered is not selected by
`broadcast_event`. -/
theorem broadcast_matched_counterexample :
    ¬ (∀ (event : RtEvent) (subs : List Subscription) (sub : Subscription),
        sub ∈ subs →
        (sub ∈ broadcast_matched event subs ↔
          (event.contract_address = sub.filter.contract_address
            ∧ (sub.filter.event_types.getD [] = []
                ∨ event.event_type ∈ sub.filter.event_types.getD [])
            ∧ (sub.filter.event_keys.getD [] = []
                ∨ ∃ k ∈ sub.filter.event_keys.getD [], k ∈ event.raw_keys)))) := by
  intro h
  have hx := h ⟨"0xc", "Transfer", ["0xk"]⟩
    [⟨"s1", ⟨"0xc", some [], none⟩⟩] ⟨"s1", ⟨"0xc", some [], none⟩⟩ (by decide)
  have hmem : (⟨"s1", ⟨"0xc", some [], none⟩⟩ : Subscription)
      ∈ broadcast_matched ⟨"0xc", "Transfer", ["0xk"]⟩ [⟨"s1", ⟨"0xc", some [], none⟩⟩] :=
    hx.mpr ⟨rfl, Or.inl rfl, Or.inl rfl⟩
  exact absurd hmem (by decide)

/-- C7 (amended): a published event is selected by `broadcast_event` for
a registered subscription iff the addresses are equal, the type filter is
unset (`None`) or contains the event type, and the key filter is unset
(`None`) or intersects the event's raw keys; a present-but-empty
(`Some([])`) filter set matches nothing. -/
theorem broadcast_matched_iff (event : RtEvent) (subs : List Subscription)
    (sub : Subscription) :
    sub ∈ broadcast_matched event subs ↔
      (sub ∈ subs
        ∧ event.contract_address = sub.filter.contract_address
        ∧ (match sub.filter.event_types with
           | some ts => event.event_type ∈ ts
           | none => True)
        ∧ (match sub.filter.event_keys with
           | some ks => ∃ k ∈ ks, k ∈ event.raw_keys
           | none => True)) := by
  unfold broadcast_matched
  rw [List.mem_filter, matches_filter_iff]

/-- C8 counterexample ABI: two struct-kind events with the same arity. -/
def c8_abi : List RawAbiItem :=
  [⟨some "event", some "mod::A", some "struct",
    [⟨some "x", some "ContractAddress", some "data"⟩], []⟩,
   ⟨some "event", some "mod::B", some "struct",
    [⟨some "y", some "ContractAddress", some "data"⟩], []⟩]

/-- C8 counterexample: `decode_event_using_abi` iterates the parser's
`events` HashMap, whose iteration order is unspecified and not stable
across evaluations; with two candidate events of compatible arity, two
legal iteration orders of the same dictionary yield different
`(event_type, decoded)` results for the same ABI and log. -/
theorem decode_event_order_counterexample :
    ¬ (∀ o1 o2 : List (String × AbiType),
        o1.Perm (AbiParser.new c8_abi).events → o2.Perm (AbiParser.new c8_abi).events →
        decode_event_using_abi o1 (AbiParser.new c8_abi).types ["0xs"] ["0xd"]
          = decode_event_using_abi o2 (AbiParser.new c8_abi).types ["0xs"] ["0xd"]) := by
  intro h
  have hx := h (AbiParser.new c8_abi).events ((AbiParser.new c8_abi).events).reverse
    (List.Perm.refl _) (List.reverse_perm _)
  exact absurd hx (by decide)

/-- C8 (amended): the decoder is deterministic in its explicit inputs —
in particular, whenever the ABI's event dictionary has at most one entry,
the result does not depend on the dictionary's iteration order; with two
or more candidate events it does (see the counterexample). -/
theorem decode_event_order_deterministic (events_dict types_dict : List (String × AbiType))
    (keys data : List String) (o1 o2 : List (String × AbiType))
    (h1 : o1.Perm events_dict) (h2 : o2.Perm events_dict)
    (hlen : events_dict.length ≤ 1) :
    decode_event_using_abi o1 types_dict keys data
      = decode_event_using_abi o2 types_dict keys data := by
  have e1 : o1 = events_dict := by
    cases events_dict with
    | nil => exact h1.eq_nil
    | cons a t =>
      cases t with
      | nil => exact List.perm_singleton.mp h1
      | cons b t2 =>
        exfalso
        simp only [List.length_cons] at hlen
        omega
  have e2 : o2 = events_dict := by
    cases events_dict with
    | nil => exact h2.eq_nil
    | cons a t =>
      cases t with
      | nil => exact List.perm_singleton.mp h2
      | cons b t2 =>
        exfalso
        simp only [List.length_cons] at hlen
        omega
  rw [e1, e2]

/-- Witness for C8: a one-event dictionary decodes identically under any
iteration order of itself. -/
theorem decode_event_order_deterministic_witness :
    decode_event_using_abi [("E", ⟨"E", [⟨"m", "u8", false⟩]⟩)] [] ["0xs"] ["0x2a"]
      = decode_event_using_abi [("E", ⟨"E", [⟨"m", "u8", false⟩]⟩)] [] ["0xs"] ["0x2a"] :=
  decode_event_order_deterministic [("E", ⟨"E", [⟨"m", "u8", false⟩]⟩)] [] ["0xs"] ["0x2a"]
    [("E", ⟨"E", [⟨"m", "u8", false⟩]⟩)] [("E", ⟨"E", [⟨"m", "u8", false⟩]⟩)]
    (List.Perm.refl _) (List.Perm.refl _) (by decide)

/-- Bootstrap state for the cursor-regression trace: fresh contract
(`cursor = none`), historical task starting at block 0 with
`current_block = 5000` read at start, chain tip at 5000, default
`chunk_size = 2000`. -/
def c1_init : SyncState := ⟨none, 0, 5000, 5000⟩

/-- After the first historical window `[0, 2000]`: cursor 2000. -/
def c1_s1 : SyncState := ⟨some 2000, 2001, 5000, 5000⟩

/-- After one tailing pass (`[2001, 5000]`): cursor 5000. -/
def c1_s2 : SyncState := ⟨some 5000, 2001, 5000, 5000⟩

/-- C1 counterexample: the two ingestion tasks share the cursor row with
no monotonicity guard, so an interleaving regresses it — after the
historical window `[0,2000]` and a tailing pass writing 5000, the next
historical window `[2001,4001]` overwrites the stored 5000 with 4001. -/
theorem cursor_monotonicity_counterexample :
    ¬ (∀ s s' : SyncState,
        Relation.ReflTransGen (IndexerStep 2000) c1_init s → IndexerStep 2000 s s' →
        ∀ v v', s.cursor = some v → s'.cursor = some v' → v ≤ v') := by
  intro h
  have e1 : histWindowOkStep 2000 c1_init = c1_s1 := by decide
  have e2 : tailSyncStep c1_s1 = c1_s2 := by decide
  have hreach : Relation.ReflTransGen (IndexerStep 2000) c1_init c1_s2 := by
    have st1 : IndexerStep 2000 c1_init c1_s1 := e1 ▸ IndexerStep.hist_ok c1_init
    have st2 : IndexerStep 2000 c1_s1 c1_s2 := e2 ▸ IndexerStep.tail_sync c1_s1
    exact Relation.ReflTransGen.head st1 (Relation.ReflTransGen.single st2)
  have hv := h c1_s2 (histWindowOkStep 2000 c1_s2) hreach (IndexerStep.hist_ok c1_s2)
    5000 4001 (by decide) (by decide)
  omega

/-- C1 (amended): a failed window never touches the cursor; a historical
window write never decreases the cursor as long as the stored value is
below the task's next window start (true while the historical task is the
only writer); and a tailing write never decreases the cursor it read.
The unqualified claim fails only under interleaving of the two tasks
(see the counterexample). -/
theorem cursor_step_properties (chunk : Nat) (s : SyncState) :
    (histWindowErrStep chunk s).cursor = s.cursor
      ∧ (∀ v, s.cursor = some v → v < s.histFrom →
          ∀ v', (histWindowOkStep chunk s).cursor = some v' → v ≤ v')
      ∧ (∀ v, s.cursor = some v →
          ∀ v', (tailSyncStep s).cursor = some v' → v ≤ v') := by
  refine ⟨histWindowErrStep_cursor chunk s, ?_, ?_⟩
  · intro v hv hlt v' hv'
    unfold histWindowOkStep at hv'
    by_cases hfc : s.histFrom < s.histCurrent
    · rw [if_pos hfc] at hv'
      simp only [Option.some.injEq] at hv'
      omega
    · rw [if_neg hfc] at hv'
      rw [hv] at hv'
      simp only [Option.some.injEq] at hv'
      omega
  · intro v hv v' hv'
    have ht : tailSyncStep s
        = if v < s.chain then { s with cursor := some s.chain } else s := by
      unfold tailSyncStep
      rw [hv]
    rw [ht] at hv'
    by_cases hlt : v < s.chain
    · rw [if_pos hlt] at hv'
      simp only [Option.some.injEq] at hv'
      omega
    · rw [if_neg hlt] at hv'
      rw [hv] at hv'
      simp only [Option.some.injEq] at hv'
      omega

/-- Witness for C1: at `c1_s1` the cursor (2000) is below the next window
start (2001), so the next successful historical window writes at least
2000. -/
theorem cursor_step_properties_witness :
    c1_s1.cursor = some 2000 ∧ 2000 < c1_s1.histFrom
      ∧ ∀ v', (histWindowOkStep 2000 c1_s1).cursor = some v' → 2000 ≤ v' :=
  ⟨by decide, by decide, (cursor_step_properties 2000 c1_s1).2.1 2000 (by decide) (by decide)⟩

/-- First fetched batch for the C2 trace: a window starting at the block
of transaction `0xT`, which emitted two events. -/
def c2_batch1 : List RawEvent :=
  [⟨some "0xT", some 10, ["0xs"], ["0x01"]⟩, ⟨some "0xT", some 10, ["0xs"], ["0x02"]⟩]

/-- Second, overlapping fetched batch: one earlier event from `0xS`
precedes the two `0xT` events, shifting their enumeration indices. -/
def c2_batch2 : List RawEvent :=
  [⟨some "0xS", some 9, ["0xs"], ["0x00"]⟩,
   ⟨some "0xT", some 10, ["0xs"], ["0x01"]⟩, ⟨some "0xT", some 10, ["0xs"], ["0x02"]⟩]

/-- Placeholder record for positional access. -/
def c2_dummy : EventRecord := ⟨"", "", "", 0, "", 0, none, [], []⟩

/-- C2 counterexample: ids are not unique across ingested events —
`log_index` is the position in each RPC response array, so the second
event of `0xT` in the first batch and the first event of `0xT` in the
second (overlapping) batch are distinct events (different raw data) that
both receive id `"0xT:1"`. -/
theorem event_id_uniqueness_counterexample :
    (sync_block_range_records none none "0xc" [] [] c2_batch1).length = 2
      ∧ (sync_block_range_records none none "0xc" [] [] c2_batch2).length = 3
      ∧ ((sync_block_range_records none none "0xc" [] [] c2_batch1).getD 1 c2_dummy).id
        = ((sync_block_range_records none none "0xc" [] [] c2_batch2).getD 1 c2_dummy).id
      ∧ ((sync_block_range_records none none "0xc" [] [] c2_batch1).getD 1 c2_dummy).raw_data
        ≠ ((sync_block_range_records none none "0xc" [] [] c2_batch2).getD 1 c2_dummy).raw_data :=
  ⟨by decide, by decide, by decide, by decide⟩

/-- C2 (amended): every record built by `sync_block_range` satisfies
`id = transaction_hash ++ ":" ++ log_index`, where `log_index` is the
event's position in the RPC response array; ids are however not unique
across separately fetched (overlapping) windows. -/
theorem event_record_id_formula (cfg_event_types cfg_event_keys : Option (List String))
    (contract_address : String) (events_order types : List (String × AbiType))
    (idx : Nat) (events_array : List RawEvent) (r : EventRecord)
    (hr : r ∈ sync_block_range_go cfg_event_types cfg_event_keys contract_address
      events_order types idx events_array) :
    r.id = r.transaction_hash ++ ":" ++ Nat.repr r.log_index := by
  induction events_array generalizing idx with
  | nil => simp [sync_block_range_go] at hr
  | cons ev rest ih =>
    simp only [sync_block_range_go] at hr
    by_cases hk : keep_filters cfg_event_types cfg_event_keys
        (decode_event_using_abi events_order types ev.keys ev.data).1 ev
    · rw [if_pos hk] at hr
      rcases List.mem_cons.mp hr with hhead | htail
      · rw [hhead]
      · exact ih idx.succ htail
    · rw [if_neg hk] at hr
      exact ih idx.succ hr

/-- Witness for C2: the first record of the first batch satisfies the id
formula. -/
theorem event_record_id_formula_witness :
    ((sync_block_range_records none none "0xc" [] [] c2_batch1).getD 0 c2_dummy).id
      = ((sync_block_range_records none none "0xc" [] [] c2_batch1).getD 0 c2_dummy).transaction_hash
        ++ ":"
        ++ Nat.repr ((sync_block_range_records none none "0xc" [] [] c2_batch1).getD 0 c2_dummy).log_index :=
  event_record_id_formula none none "0xc" [] [] 0 c2_batch1
    ((sync_block_range_records none none "0xc" [] [] c2_batch1).getD 0 c2_dummy) (by decide)
